import Mathlib

/-!
# Verification of the consent / analytics / forms components

Shallow embedding of the three browser components of this repository:
the GDPR consent banner (`shared-assets/bri-consent-banner.js`), the
event-analytics shim (the anonymous IIFE source file), and the custom
form validator/submitter (`assets/js/bri-custom-forms.js`).

Strings from the page are modelled as Lean `String`s; where the source
performs character-level scans over `document.cookie` we work on the
underlying `List Char` (`String.data`).  Browser storage is modelled
explicitly: the cookie jar as an association list of name/value pairs
(the serialized entry for a pair `(n, v)` being `n ++ "=" ++ v`, which
is what `document.cookie.split(';')` hands to the scripts after
trimming), and `localStorage.getItem` as an `Option String`.
-/

/-- Substring test over character lists; models JavaScript
`String.prototype.includes` (used by `hasUserConsent` on the found
cookie entry). `containsSeq pat l` is true iff `pat` occurs
contiguously inside `l`. -/
def containsSeq (pat : List Char) : List Char → Bool
  | [] => pat.isEmpty
  | c :: rest => pat.isPrefixOf (c :: rest) || containsSeq pat rest

/-- The two consent storage locations: the parsed cookie jar and the
`localStorage` value for the consent key (`none` models `null`). -/
structure ConsentStorage where
  cookies : List (String × String)
  localStore : Option String
  deriving DecidableEq

/-- Serialized cookie entry as seen after `document.cookie.split(';')`
and `trim()`: `name=value`. -/
def cookieEntry (p : String × String) : List Char :=
  p.1.data ++ '=' :: p.2.data

/-- The prefix both scripts scan for: `"analytics-consent="`. -/
def consentKeyEq : List Char := "analytics-consent=".data

/-- `document.cookie.split(';').find(c => c.trim().startsWith('analytics-consent='))`:
first cookie whose serialized entry starts with `analytics-consent=`. -/
def findConsentCookie (jar : List (String × String)) : Option (String × String) :=
  jar.find? (fun p => consentKeyEq.isPrefixOf (cookieEntry p))

/-- The value stored under the consent cookie key, for stating
spec-level properties ("the stored value"). -/
def consentCookieValue (jar : List (String × String)) : Option String :=
  (jar.find? (fun p => p.1 == "analytics-consent")).map Prod.snd

/-- `hasUserConsent` from the analytics source:
`consentCookie?.includes('true') || localConsent === 'true'`. -/
def hasUserConsent (s : ConsentStorage) : Bool :=
  (match findConsentCookie s.cookies with
   | some p => containsSeq "true".data (cookieEntry p)
   | none => false)
  || (s.localStore == some "true")

namespace ConsentBanner

/-- `hasExistingConsent` from the consent banner:
`consentCookie || localConsent !== null` (a found entry is a
non-empty string, hence truthy). -/
def hasExistingConsent (s : ConsentStorage) : Bool :=
  (findConsentCookie s.cookies).isSome || s.localStore.isSome

end ConsentBanner

/-- `document.cookie = "k=v; ..."`: the browser replaces an existing
cookie of the same name or appends a new one. -/
def setCookie (jar : List (String × String)) (k v : String) : List (String × String) :=
  if jar.any (fun p => p.1 == k) then
    jar.map (fun p => if p.1 == k then (k, v) else p)
  else
    jar ++ [(k, v)]

namespace ConsentBanner

/-- Cookie lifetime used by `setConsent`:
`30 * 24 * 60 * 60 * 1000` milliseconds (30 days). -/
def consentCookieExpiryMs : Nat := 30 * 24 * 60 * 60 * 1000

/-- The externally visible writes and calls performed by the banner's
`setConsent`. -/
structure ConsentWrite where
  cookieName : String
  cookieValue : String
  cookieExpiryMs : Nat
  cookiePath : String
  localKey : String
  localValue : String
  signaledAnalytics : Bool
  deriving DecidableEq

/-- Storage effect of the banner's `setConsent(value)`: sets the
`analytics-consent` cookie and the `analytics-consent` localStorage
key to `value`. -/
def setConsentStorage (s : ConsentStorage) (value : String) : ConsentStorage :=
  ⟨setCookie s.cookies "analytics-consent" value, some value⟩

/-- `setConsent(value)` from the banner source: writes both locations
(cookie with 30-day expiry and path `/`), and calls
`window.EventAnalytics.setConsent(true)` iff `value === 'true'` and
the analytics global is present. -/
def setConsent (s : ConsentStorage) (value : String) (analyticsPresent : Bool) :
    ConsentStorage × ConsentWrite :=
  (setConsentStorage s value,
   ⟨"analytics-consent", value, consentCookieExpiryMs, "/",
    "analytics-consent", value, (value == "true") && analyticsPresent⟩)

/-- `window.handleConsentChoice(accepted)`:
`setConsent(accepted ? 'true' : 'false')`. -/
def handleConsentChoice (s : ConsentStorage) (accepted : Bool) (analyticsPresent : Bool) :
    ConsentStorage × ConsentWrite :=
  setConsent s (if accepted then "true" else "false") analyticsPresent

/-- Delay before the banner is injected: `setTimeout(showConsentBanner, 1000)`. -/
def bannerShowDelayMs : Nat := 1000

/-- The banner's `init()`: the banner is shown (after the fixed delay)
iff no existing consent decision is found. -/
def bannerShownOnLoad (s : ConsentStorage) : Bool :=
  !hasExistingConsent s

end ConsentBanner

namespace EventAnalytics

/-- `window.EventAnalytics.setConsent(value)` from the analytics
source: writes `'true'`/`'false'` to localStorage only (the cookie is
untouched) and re-runs `init()` iff `value` is truthy.  Returns the
updated storage and whether `init()` was re-run. -/
def setConsent (s : ConsentStorage) (value : Bool) : ConsentStorage × Bool :=
  ({ s with localStore := some (if value then "true" else "false") }, value)

end EventAnalytics

/-- Actions that touch the consent-relevant state across a browsing
session: a page load (reads storage, may show the banner), a banner
Accept/Reject click, or a direct call to the analytics consent
setter. -/
inductive ConsentAction
  | pageLoad
  | bannerChoice (accepted : Bool)
  | analyticsConsent (value : Bool)
  deriving DecidableEq

/-- Storage effect of one action (page loads do not write storage). -/
def applyAction (s : ConsentStorage) : ConsentAction → ConsentStorage
  | .pageLoad => s
  | .bannerChoice b => (ConsentBanner.handleConsentChoice s b true).1
  | .analyticsConsent v => (EventAnalytics.setConsent s v).1

/-- The banner-shown flag observed at each page load of an action
sequence. -/
def loadFlags : List ConsentAction → ConsentStorage → List Bool
  | [], _ => []
  | a :: rest, s =>
    (match a with
     | .pageLoad => [ConsentBanner.bannerShownOnLoad s]
     | _ => []) ++ loadFlags rest (applyAction s a)

/-- Result of `GDPRComplianceValidator.validate`. -/
structure ValidationResult where
  isValid : Bool
  errors : List String
  deriving DecidableEq

namespace GDPRComplianceValidator

/-- The fixed allowlist of submittable field names
(`allowedFields` in `validate`). -/
def allowedFields : List String :=
  ["email", "firstname", "lastname", "company", "phone", "jobtitle",
   "event_name", "event_engagement_level", "utm_source_original",
   "session_duration_seconds", "top_interest_section_1", "top_interest_section_2",
   "top_interest_section_3", "cta_interaction_type", "linkedin_lead_source"]

/-- Characters admitted by `[^\s@]` in the simplified RFC 5322 regex. -/
def emailChar (c : Char) : Bool := !c.isWhitespace && c != '@'

/-- `isValidEmail`: the test of `/^[^\s@]+@[^\s@]+\.[^\s@]+$/`.  The
string must decompose as `local ++ "@" ++ x ++ "." ++ y` with `local`,
`x`, `y` non-empty and free of whitespace and `@` (dots are allowed in
each part; the regex backtracks, so any such decomposition witnesses a
match).  `i` ranges over the position of the `@`, `j` over the
position of the dot. -/
def isValidEmail (email : String) : Bool :=
  let cs := email.data
  let n := cs.length
  (List.range n).any fun i =>
    (List.range n).any fun j =>
      decide (0 < i) && decide (i + 1 < j) && decide (j + 1 < n)
      && (cs.getD i ' ' == '@') && (cs.getD j ' ' == '.')
      && (cs.take i).all emailChar
      && ((cs.drop (i + 1)).take (j - (i + 1))).all emailChar
      && (cs.drop (j + 1)).all emailChar

/-- Error message pushed when consent was not given. -/
def consentErrMsg : String := "Explicit consent is required before data processing"

/-- Error message pushed when the email field is missing/empty. -/
def emailRequiredMsg : String := "Email is required for contact identification"

/-- Error message pushed when the email field fails the regex. -/
def emailInvalidMsg : String := "Email must be valid to ensure data accuracy"

/-- Error message pushed for a field outside the allowlist. -/
def fieldNotAllowedMsg (k : String) : String :=
  "Field \"" ++ k ++ "\" is not allowed"

/-- `formData.email` as a string: the submitted value, or `""` when
the key is absent (both are falsy in the source's `!formData.email`
test, and `''` never passes the regex, matching the JS truthiness
branch structure). -/
def emailValue (formData : List (String × String)) : String :=
  ((formData.find? (fun p => p.1 == "email")).map Prod.snd).getD ""

/-- `GDPRComplianceValidator.validate(formData, consentGiven)`: pushes
one error per violated rule, in source order — consent, email
presence, email format, then one per disallowed field name — and is
valid iff no error was pushed. -/
def validate (formData : List (String × String)) (consentGiven : Bool) : ValidationResult :=
  let errors :=
    (if consentGiven = false then [consentErrMsg] else [])
    ++ (if emailValue formData = "" then [emailRequiredMsg] else [])
    ++ (if emailValue formData ≠ "" ∧ isValidEmail (emailValue formData) = false then
          [emailInvalidMsg] else [])
    ++ (formData.map Prod.fst).filterMap
        (fun k => if allowedFields.contains k then none else some (fieldNotAllowedMsg k))
  ⟨errors.isEmpty, errors⟩

end GDPRComplianceValidator

/-- Outcome of the `fetch` POST in `HubSpotFormSubmitter.submit`: the
transport throws, or a response with an `ok` flag arrives. -/
inductive FetchOutcome
  | thrown
  | response (ok : Bool)
  deriving DecidableEq

/-- The `{success, data/error}` object returned by `submit`. -/
structure SubmitResult where
  success : Bool
  error : Option String
  deriving DecidableEq

namespace HubSpotFormSubmitter

/-- Generic failure message returned by `submit`'s catch block. -/
def submitFailureMsg : String := "Submission failed. Please try again."

/-- `HubSpotFormSubmitter.submit`: a non-ok response throws inside the
`try`, and every throw is caught and turned into a failure result —
the function itself never throws. -/
def submit (outcome : FetchOutcome) : SubmitResult :=
  match outcome with
  | .thrown => ⟨false, some submitFailureMsg⟩
  | .response ok => if ok then ⟨true, none⟩ else ⟨false, some submitFailureMsg⟩

end HubSpotFormSubmitter

/-- The externally visible actions of `BRICustomForm.handleSubmit`, in
program order. -/
inductive UIAction
  | hideMessages
  | showValidationErrors (errs : List String)
  | disableSubmit
  | post
  | hideForm
  | showSuccess
  | showFailure
  | enableSubmit
  deriving DecidableEq

namespace BRICustomForm

/-- `BRICustomForm.handleSubmit` as its trace of UI/network actions:
clear both message boxes; on validation failure show the aggregated
errors and stop (no POST); otherwise disable the submit control, issue
the single POST, and either (success) hide the form and show the
success box, or (failure) show the failure box and re-enable the
submit control. -/
def handleSubmit (data : List (String × String)) (consentGiven : Bool)
    (outcome : FetchOutcome) : List UIAction :=
  let v := GDPRComplianceValidator.validate data consentGiven
  UIAction.hideMessages ::
    (if v.isValid = false then
      [UIAction.showValidationErrors v.errors]
    else
      UIAction.disableSubmit :: UIAction.post ::
        (if (HubSpotFormSubmitter.submit outcome).success then
          [UIAction.hideForm, UIAction.showSuccess]
        else
          [UIAction.showFailure, UIAction.enableSubmit]))

end BRICustomForm

/-- UTM parameters extracted by `getUTMParams` (each `null` when the
query parameter is absent). -/
structure UTMParams where
  source : Option String
  medium : Option String
  campaign : Option String
  content : Option String
  term : Option String
  deriving DecidableEq

/-- `URLSearchParams.get(k)`: the first value for `k`, `null` if absent. -/
def getParam (params : List (String × String)) (k : String) : Option String :=
  (params.find? (fun p => p.1 == k)).map Prod.snd

/-- `getUTMParams()` over the parsed query string. -/
def getUTMParams (params : List (String × String)) : UTMParams :=
  ⟨getParam params "utm_source", getParam params "utm_medium",
   getParam params "utm_campaign", getParam params "utm_content",
   getParam params "utm_term"⟩

/-- `detectQRScan()`: `params.get('utm_medium') === 'qr'`. -/
def detectQRScan (params : List (String × String)) : Bool :=
  getParam params "utm_medium" == some "qr"

/-- One event pushed onto the CRM queue `window._hsq` by
`sendHubSpotEvent` (the payload of `trackCustomBehavioralEvent`):
the event name, the caller's properties, and the campaign context
merged in by the function. -/
structure HsqEvent where
  name : String
  props : List (String × String)
  analyticsId : Option String
  isQR : Bool
  campaign : Option String
  source : Option String
  medium : Option String
  deriving DecidableEq

/-- The analytics component's mutable surroundings: consent storage,
the `window._hsq` queue (`none` when the global is undefined), and
the `state` object's campaign context. -/
structure AnalyticsState where
  storage : ConsentStorage
  hsq : Option (List HsqEvent)
  analyticsId : Option String
  isQR : Bool
  utmParams : UTMParams
  deriving DecidableEq

namespace EventAnalytics

/-- `sendHubSpotEvent(eventName, properties)`: returns immediately
when `hasUserConsent()` is false; otherwise, when the `_hsq` global
exists, pushes the behavioral event (with the campaign context merged
into the properties) onto the queue. -/
def sendHubSpotEvent (s : AnalyticsState) (eventName : String)
    (props : List (String × String)) : AnalyticsState :=
  if hasUserConsent s.storage = false then s
  else
    match s.hsq with
    | none => s
    | some q =>
      { s with
        hsq := some (q ++ [⟨eventName, props, s.analyticsId, s.isQR,
                            s.utmParams.campaign, s.utmParams.source, s.utmParams.medium⟩]) }

/-- The events currently on the CRM queue ([] when the global is
undefined). -/
def hsqEvents (s : AnalyticsState) : List HsqEvent :=
  s.hsq.getD []

end EventAnalytics

/-- Modelled platform behaviour: the split of `new URL(u)` at the
first `"://"`, returning (scheme chars, remainder). `none` when no
`"://"` occurs, which the model treats as a parse failure (the
constructor throws). -/
def splitSchemeSep : List Char → Option (List Char × List Char)
  | [] => none
  | ':' :: '/' :: '/' :: rest => some ([], rest)
  | c :: rest =>
    match splitSchemeSep rest with
    | none => none
    | some (a, b) => some (c :: a, b)

/-- The components of a parsed URL that `sanitizeURL` can observe. -/
structure URLParts where
  host : List Char
  pathname : List Char
  deriving DecidableEq

/-- Modelled platform behaviour: `new URL(u)` for absolute
`scheme://host/path?query#fragment` URLs, keeping only what
`sanitizeURL` reads.  The scheme and host must be non-empty; the
pathname runs from the first `/` after the host up to the query or
fragment, and defaults to `"/"`. Inputs that do not fit this shape
make the constructor throw, modelled as `none`. -/
def parseURL (u : String) : Option URLParts :=
  match splitSchemeSep u.data with
  | none => none
  | some (scheme, rest) =>
    if scheme.isEmpty then none
    else
      let host := rest.takeWhile fun c => decide (c ≠ '/' ∧ c ≠ '?' ∧ c ≠ '#')
      if host.isEmpty then none
      else
        match rest.drop host.length with
        | [] => some ⟨host, ['/']⟩
        | c :: tl =>
          if c = '/' then
            some ⟨host, '/' :: tl.takeWhile fun c => decide (c ≠ '?' ∧ c ≠ '#')⟩
          else some ⟨host, ['/']⟩

/-- `sanitizeURL(url)`: `new URL(url).pathname`, or `'/'` when the
constructor throws. -/
def sanitizeURL (u : String) : String :=
  match parseURL u with
  | some parts => String.mk parts.pathname
  | none => "/"

/-- The two event sinks. -/
inductive Sink
  | vercel
  | hubspot
  deriving DecidableEq

/-- One event handed to a sink during `init()`. -/
structure TrackedEvent where
  sink : Sink
  name : String
  fields : List (String × String)
  deriving DecidableEq

/-- The page-level environment `init()` runs against. -/
structure PageEnv where
  analyticsId : Option String
  queryParams : List (String × String)
  vaPresent : Bool
  hsqPresent : Bool
  storage : ConsentStorage
  href : String
  referrer : String
  title : String
  deriving DecidableEq

namespace EventAnalytics

/-- `trackPageView()`: a `page_view` event to the Vercel sink (when
`window.va` exists) and a consent-gated `Landing Page View` event to
the CRM sink (when `_hsq` exists), both carrying only sanitized
URLs; an empty `document.referrer` is reported as `'direct'`. -/
def trackPageViewEvents (env : PageEnv) : List TrackedEvent :=
  let sanitizedPath := sanitizeURL env.href
  let sanitizedReferrer := if env.referrer = "" then "direct" else sanitizeURL env.referrer
  (if env.vaPresent then
    [⟨.vercel, "page_view", [("page", sanitizedPath), ("title", env.title)]⟩]
  else [])
  ++ (if hasUserConsent env.storage && env.hsqPresent then
    [⟨.hubspot, "Landing Page View",
      [("page_url", sanitizedPath), ("page_title", env.title),
       ("referrer", sanitizedReferrer)]⟩]
  else [])

/-- `trackQRLanding()`: when `state.isQR` (set from `detectQRScan()`),
a `qr_scan_landing` event to the Vercel sink and a consent-gated
`QR Code Scan` event to the CRM sink; otherwise nothing. -/
def trackQRLandingEvents (env : PageEnv) : List TrackedEvent :=
  if detectQRScan env.queryParams then
    let campaign := (getParam env.queryParams "utm_campaign").getD "unknown"
    let source := (getParam env.queryParams "utm_source").getD "unknown"
    (if env.vaPresent then
      [⟨.vercel, "qr_scan_landing", [("campaign", campaign), ("source", source)]⟩]
    else [])
    ++ (if hasUserConsent env.storage && env.hsqPresent then
      [⟨.hubspot, "QR Code Scan",
        [("event_type", "qr_landing"), ("campaign", campaign), ("source", source)]⟩]
    else [])
  else []

/-- The events `init()` dispatches synchronously: nothing when the
`data-analytics-campaign` attribute is absent (silent early return);
otherwise the page-view events followed by the QR-landing events. -/
def initTrace (env : PageEnv) : List TrackedEvent :=
  match env.analyticsId with
  | none => []
  | some _ => trackPageViewEvents env ++ trackQRLandingEvents env

end EventAnalytics

/-- `CONFIG.sectionEngagementTime`: the dwell threshold, 2000 ms. -/
def sectionEngagementTime : Nat := 2000

/-- A visibility change reported by the IntersectionObserver for one
section: it crosses above the visibility threshold (`enter`) or drops
below it / leaves the viewport (`leave`). -/
inductive VisEvent
  | enter (sid : String)
  | leave (sid : String)
  deriving DecidableEq

/-- The observer's state: `state.trackedSections`,
`state.sectionTimers` (section id ↦ absolute fire deadline), and the
engagement events emitted so far (section id, emission time). -/
structure ObsState where
  tracked : List String
  timers : List (String × Nat)
  emitted : List (String × Nat)
  deriving DecidableEq

/-- `init()` starts with no tracked sections and no timers. -/
def initialObs : ObsState := ⟨[], [], []⟩

namespace EventAnalytics

/-- `trackSectionEngagement(sectionId, ...)` at time `t`: a no-op when
the section was already tracked this page load; otherwise records the
section and emits its engagement event. -/
def trackSectionEngagement (sid : String) (t : Nat) (s : ObsState) : ObsState :=
  if sid ∈ s.tracked then s
  else ⟨sid :: s.tracked, s.timers, s.emitted ++ [(sid, t)]⟩

end EventAnalytics

/-- Fire every timer whose deadline has been reached by time `t`
(each `setTimeout` callback runs `trackSectionEngagement` and deletes
its timer). -/
def fireDue (t : Nat) (s : ObsState) : ObsState :=
  (s.timers.filter fun p => decide (p.2 ≤ t)).foldl
    (fun acc p => EventAnalytics.trackSectionEngagement p.1 p.2 acc)
    ⟨s.tracked, s.timers.filter fun p => decide (¬p.2 ≤ t), s.emitted⟩

/-- One IntersectionObserver callback at time `t`: any already-due
timers have fired first; then, on `enter`, a fresh timer for
`t + sectionEngagementTime` is started unless one is already pending
for that section (the timer restarts from zero, it is never
accumulated); on `leave`, the pending timer for that section is
cleared. -/
def obsStep (s : ObsState) (e : Nat × VisEvent) : ObsState :=
  let s' := fireDue e.1 s
  match e.2 with
  | .enter sid =>
    if s'.timers.any (fun p => p.1 == sid) then s'
    else ⟨s'.tracked, s'.timers ++ [(sid, e.1 + sectionEngagementTime)], s'.emitted⟩
  | .leave sid =>
    ⟨s'.tracked, s'.timers.filter (fun p => !(p.1 == sid)), s'.emitted⟩

/-- Let every still-pending timer run to its deadline (the page stays
open past all deadlines). -/
def flushTimers (s : ObsState) : ObsState :=
  s.timers.foldl
    (fun acc p => EventAnalytics.trackSectionEngagement p.1 p.2 acc)
    ⟨s.tracked, [], s.emitted⟩

/-- Run one page load's worth of timestamped visibility events. -/
def runObserver (es : List (Nat × VisEvent)) : ObsState :=
  flushTimers (es.foldl obsStep initialObs)

/-- Events are fed to the observer in chronological order. -/
def chronological (es : List (Nat × VisEvent)) : Prop :=
  es.Pairwise fun a b => a.1 ≤ b.1

instance : DecidablePred chronological := fun es =>
  List.instDecidablePairwise es

/-- `soonLeaveB sid d es`: somewhere in `es` the section `sid` leaves
the viewport strictly before time `d`. -/
def soonLeaveB (sid : String) (d : Nat) : List (Nat × VisEvent) → Bool
  | [] => false
  | e :: rest => (decide (e.2 = .leave sid) && decide (e.1 < d)) || soonLeaveB sid d rest

/-- `leavesSoonB sid dwell es`: after each `enter` of `sid` at time
`t`, the section leaves again strictly before `t + dwell` — i.e. its
continuously visible duration always stays strictly below the dwell
threshold. -/
def leavesSoonB (sid : String) (dwell : Nat) : List (Nat × VisEvent) → Bool
  | [] => true
  | e :: rest =>
    (if e.2 = .enter sid then soonLeaveB sid (e.1 + dwell) rest else true)
    && leavesSoonB sid dwell rest

/-! ## Claim C1: the CRM behavioral sink is consent-gated -/

/-- Claim C1: a call to the CRM behavioral sink (`sendHubSpotEvent`)
pushes an event onto the CRM queue `window._hsq` only if
`hasUserConsent()` is true at call time; when consent is absent the
call silently does nothing, so no CRM behavioral event is ever sent
without a prior affirmative consent record. -/
theorem c1_hubspot_consent_gate (s : AnalyticsState) (eventName : String)
    (props : List (String × String)) :
    (hasUserConsent s.storage = false →
      EventAnalytics.sendHubSpotEvent s eventName props = s)
    ∧ ∀ e ∈ EventAnalytics.hsqEvents (EventAnalytics.sendHubSpotEvent s eventName props),
        e ∈ EventAnalytics.hsqEvents s ∨ hasUserConsent s.storage = true := by
  constructor
  · intro h
    simp [EventAnalytics.sendHubSpotEvent, h]
  · intro e he
    cases hc : hasUserConsent s.storage with
    | false =>
      simp only [EventAnalytics.sendHubSpotEvent, hc, if_pos rfl] at he
      exact Or.inl he
    | true => exact Or.inr rfl

/-- Witness for C1: in a state with no consent record the sink is a
no-op, and in a consented state the pushed event is explained by the
consent being present. -/
theorem c1_hubspot_consent_gate_witness :
    EventAnalytics.sendHubSpotEvent
        ⟨⟨[], none⟩, some [], some "AI_Week_Frankfurt_2025", false,
         ⟨none, none, none, none, none⟩⟩ "CTA Click" []
      = ⟨⟨[], none⟩, some [], some "AI_Week_Frankfurt_2025", false,
         ⟨none, none, none, none, none⟩⟩
    ∧ ((⟨"CTA Click", [], some "AI_Week_Frankfurt_2025", false, none, none, none⟩ : HsqEvent)
        ∈ EventAnalytics.hsqEvents
            ⟨⟨[], some "true"⟩, some [], some "AI_Week_Frankfurt_2025", false,
             ⟨none, none, none, none, none⟩⟩
      ∨ hasUserConsent
          (⟨⟨[], some "true"⟩, some [], some "AI_Week_Frankfurt_2025", false,
            ⟨none, none, none, none, none⟩⟩ : AnalyticsState).storage = true) :=
  ⟨(c1_hubspot_consent_gate _ "CTA Click" []).1 (by decide),
   (c1_hubspot_consent_gate _ "CTA Click" []).2
     ⟨"CTA Click", [], some "AI_Week_Frankfurt_2025", false, none, none, none⟩ (by decide)⟩

/-! ## Claim C3: failed submissions degrade without retry -/

/-- Claim C3: when the POST receives a non-success status or the
transport throws, `submit` returns a failure result rather than
throwing; `handleSubmit` then only shows the generic failure message
and re-enables the submit control, never shows the success message,
and issues exactly one POST (no retry, backoff, or queuing). -/
theorem c3_submit_failure_handling (data : List (String × String)) (consentGiven : Bool)
    (outcome : FetchOutcome)
    (hv : (GDPRComplianceValidator.validate data consentGiven).isValid = true)
    (hf : outcome = .thrown ∨ outcome = .response false) :
    (HubSpotFormSubmitter.submit outcome).success = false
    ∧ UIAction.showSuccess ∉ BRICustomForm.handleSubmit data consentGiven outcome
    ∧ UIAction.showFailure ∈ BRICustomForm.handleSubmit data consentGiven outcome
    ∧ UIAction.enableSubmit ∈ BRICustomForm.handleSubmit data consentGiven outcome
    ∧ (BRICustomForm.handleSubmit data consentGiven outcome).count UIAction.post = 1 := by
  have hs : (HubSpotFormSubmitter.submit outcome).success = false := by
    rcases hf with h | h <;> subst h <;> rfl
  refine ⟨hs, ?_, ?_, ?_, ?_⟩ <;>
    simp [BRICustomForm.handleSubmit, hv, hs, List.count_cons]

/-- Witness for C3: a valid submission hitting a non-2xx response. -/
theorem c3_submit_failure_handling_witness :
    (GDPRComplianceValidator.validate [("email", "user@example.com")] true).isValid = true
    ∧ ((HubSpotFormSubmitter.submit (.response false)).success = false
      ∧ UIAction.showSuccess ∉
          BRICustomForm.handleSubmit [("email", "user@example.com")] true (.response false)
      ∧ UIAction.showFailure ∈
          BRICustomForm.handleSubmit [("email", "user@example.com")] true (.response false)
      ∧ UIAction.enableSubmit ∈
          BRICustomForm.handleSubmit [("email", "user@example.com")] true (.response false)
      ∧ (BRICustomForm.handleSubmit [("email", "user@example.com")] true
          (.response false)).count UIAction.post = 1) :=
  ⟨by decide,
   c3_submit_failure_handling [("email", "user@example.com")] true (.response false)
     (by decide) (Or.inr rfl)⟩

/-! ## Claim C6: the banner's setConsent writes both locations -/

/-- After replacing every entry named `k`, the first entry named `k`
holds the new value. -/
lemma find?_map_replace (jar : List (String × String)) (k v : String) :
    (jar.map (fun p => if p.1 == k then (k, v) else p)).find? (fun p => p.1 == k)
      = if jar.any (fun p => p.1 == k) then some (k, v) else none := by
  induction jar with
  | nil => rfl
  | cons p rest ih =>
    by_cases hp : p.1 = k
    · simp [hp, List.find?_cons_of_pos, ih]
    · have hpb : (p.1 == k) = false := beq_eq_false_iff_ne.mpr hp
      simp only [List.map_cons, List.any_cons, hpb, Bool.false_eq_true, if_false,
        Bool.false_or]
      rw [List.find?_cons_of_neg _ (by simp [hpb])]
      exact ih

/-- `setCookie` makes the first cookie named `k` carry value `v`. -/
lemma find?_setCookie (jar : List (String × String)) (k v : String) :
    (setCookie jar k v).find? (fun p => p.1 == k) = some (k, v) := by
  unfold setCookie
  by_cases h : jar.any (fun p => p.1 == k) = true
  · rw [if_pos h, find?_map_replace, if_pos h]
  · rw [if_neg h, List.find?_append]
    have : jar.find? (fun p => p.1 == k) = none := by
      rw [List.find?_eq_none]
      intro p hp hpk
      exact h (List.any_eq_true.mpr ⟨p, hp, hpk⟩)
    simp [this]

/-- Claim C6: for every choice, `handleConsentChoice` writes the
string `"true"`/`"false"` to both storage locations — the
`analytics-consent` cookie with a 30-day expiry and path `/`, and the
`analytics-consent` localStorage key — and signals the analytics
component (`EventAnalytics.setConsent(true)`) iff the choice is
grant (the analytics global being present). -/
theorem c6_banner_set_consent (s : ConsentStorage) (accepted : Bool) :
    ((ConsentBanner.handleConsentChoice s accepted true).2.cookieName = "analytics-consent"
      ∧ (ConsentBanner.handleConsentChoice s accepted true).2.localKey = "analytics-consent")
    ∧ ((ConsentBanner.handleConsentChoice s accepted true).2.cookieValue
        = (if accepted then "true" else "false")
      ∧ (ConsentBanner.handleConsentChoice s accepted true).2.localValue
        = (if accepted then "true" else "false"))
    ∧ ((ConsentBanner.handleConsentChoice s accepted true).2.cookieExpiryMs
        = 30 * 24 * 60 * 60 * 1000
      ∧ (ConsentBanner.handleConsentChoice s accepted true).2.cookiePath = "/")
    ∧ ((ConsentBanner.handleConsentChoice s accepted true).1.localStore
        = some (if accepted then "true" else "false")
      ∧ consentCookieValue (ConsentBanner.handleConsentChoice s accepted true).1.cookies
        = some (if accepted then "true" else "false"))
    ∧ ((ConsentBanner.handleConsentChoice s accepted true).2.signaledAnalytics = true
        ↔ accepted = true) := by
  refine ⟨⟨rfl, rfl⟩, ⟨rfl, rfl⟩, ⟨rfl, rfl⟩, ⟨rfl, ?_⟩, ?_⟩
  · rw [consentCookieValue]
    rw [show (ConsentBanner.handleConsentChoice s accepted true).1.cookies
          = setCookie s.cookies "analytics-consent" (if accepted then "true" else "false")
        from rfl]
    rw [find?_setCookie]
    rfl
  · cases accepted <;>
      simp [ConsentBanner.handleConsentChoice, ConsentBanner.setConsent]

/-! ## Claim C2: the GDPR validator reports every violated rule -/

/-- Claim C2: `GDPRComplianceValidator.validate` returns an error for
each violated rule — consent not given, email field absent/empty,
email present but failing the simplified RFC 5322 pattern, any field
name outside the fixed allowlist — collecting the full list rather
than stopping at the first; it is valid iff no error was produced.
In particular: a consented submission of `user@example.com` with no
extraneous fields yields no errors; without consent the
consent-missing error is always present; a field named `ssn` is
rejected as not allowed (and the `ssn` example shows three errors
reported at once). -/
theorem c2_gdpr_validate (data : List (String × String)) (consentGiven : Bool) :
    (consentGiven = false →
      GDPRComplianceValidator.consentErrMsg
        ∈ (GDPRComplianceValidator.validate data consentGiven).errors)
    ∧ (GDPRComplianceValidator.emailValue data = "" →
      GDPRComplianceValidator.emailRequiredMsg
        ∈ (GDPRComplianceValidator.validate data consentGiven).errors)
    ∧ (GDPRComplianceValidator.emailValue data ≠ "" →
      GDPRComplianceValidator.isValidEmail (GDPRComplianceValidator.emailValue data) = false →
      GDPRComplianceValidator.emailInvalidMsg
        ∈ (GDPRComplianceValidator.validate data consentGiven).errors)
    ∧ (∀ k ∈ data.map Prod.fst, k ∉ GDPRComplianceValidator.allowedFields →
      GDPRComplianceValidator.fieldNotAllowedMsg k
        ∈ (GDPRComplianceValidator.validate data consentGiven).errors)
    ∧ ((GDPRComplianceValidator.validate data consentGiven).isValid = true
        ↔ (GDPRComplianceValidator.validate data consentGiven).errors = [])
    ∧ (GDPRComplianceValidator.validate [("email", "user@example.com")] true).errors = []
    ∧ GDPRComplianceValidator.fieldNotAllowedMsg "ssn"
        ∈ (GDPRComplianceValidator.validate
            [("email", "user@example.com"), ("ssn", "123")] true).errors
    ∧ (GDPRComplianceValidator.validate [("ssn", "123")] false).errors
        = [GDPRComplianceValidator.consentErrMsg, GDPRComplianceValidator.emailRequiredMsg,
           GDPRComplianceValidator.fieldNotAllowedMsg "ssn"] := by
  refine ⟨?_, ?_, ?_, ?_, ?_, by decide, by decide, by decide⟩
  · intro h
    simp [GDPRComplianceValidator.validate, h]
  · intro h
    simp [GDPRComplianceValidator.validate, h]
  · intro h1 h2
    simp [GDPRComplianceValidator.validate, h1, h2]
  · intro k hk hka
    have hmem : GDPRComplianceValidator.fieldNotAllowedMsg k
        ∈ (data.map Prod.fst).filterMap
            (fun k => if GDPRComplianceValidator.allowedFields.contains k then none
                      else some (GDPRComplianceValidator.fieldNotAllowedMsg k)) := by
      apply List.mem_filterMap.mpr
      refine ⟨k, hk, ?_⟩
      rw [if_neg]
      intro hc
      exact hka (List.elem_iff.mp hc)
    simp only [GDPRComplianceValidator.validate, List.mem_append]
    exact Or.inr hmem
  · simp [GDPRComplianceValidator.validate, List.isEmpty_iff]

/-- Witness for C2: concretely, an unconsented submission carrying an
`ssn` field gets both the consent-missing and the field-not-allowed
errors. -/
theorem c2_gdpr_validate_witness :
    GDPRComplianceValidator.consentErrMsg
      ∈ (GDPRComplianceValidator.validate [("ssn", "123")] false).errors
    ∧ GDPRComplianceValidator.fieldNotAllowedMsg "ssn"
      ∈ (GDPRComplianceValidator.validate [("ssn", "123")] false).errors :=
  ⟨(c2_gdpr_validate [("ssn", "123")] false).1 rfl,
   (c2_gdpr_validate [("ssn", "123")] false).2.2.2.1 "ssn" (by decide) (by decide)⟩

/-! ## Claim C4: the banner shows iff undecided, and never again -/

/-- Every action of the consent state machine preserves an existing
consent decision (page loads do not write storage; both consent
setters write the localStorage key). -/
lemma hasExistingConsent_applyAction (s : ConsentStorage) (a : ConsentAction)
    (h : ConsentBanner.hasExistingConsent s = true) :
    ConsentBanner.hasExistingConsent (applyAction s a) = true := by
  cases a with
  | pageLoad => exact h
  | bannerChoice b =>
    simp [applyAction, ConsentBanner.handleConsentChoice, ConsentBanner.setConsent,
      ConsentBanner.setConsentStorage, ConsentBanner.hasExistingConsent]
  | analyticsConsent v =>
    simp [applyAction, EventAnalytics.setConsent, ConsentBanner.hasExistingConsent]

/-- Once a consent decision exists, no later page load shows the
banner. -/
lemma loadFlags_no_banner (acts : List ConsentAction) :
    ∀ s : ConsentStorage, ConsentBanner.hasExistingConsent s = true →
      ∀ f ∈ loadFlags acts s, f = false := by
  induction acts with
  | nil => intro s _ f hf; simp [loadFlags] at hf
  | cons a rest ih =>
    intro s h f hf
    cases a with
    | pageLoad =>
      simp only [loadFlags, List.singleton_append, List.mem_cons] at hf
      rcases hf with rfl | hf
      · rw [ConsentBanner.bannerShownOnLoad, h]
        rfl
      · exact ih _ (hasExistingConsent_applyAction s .pageLoad h) f hf
    | bannerChoice b =>
      simp only [loadFlags, List.nil_append] at hf
      exact ih _ (hasExistingConsent_applyAction s (.bannerChoice b) h) f hf
    | analyticsConsent v =>
      simp only [loadFlags, List.nil_append] at hf
      exact ih _ (hasExistingConsent_applyAction s (.analyticsConsent v) h) f hf

/-- Claim C4: on a page load the consent banner is injected (after the
fixed delay) iff no existing consent decision is found in either
storage location; and once a decision (accept or reject) has been
recorded, no page load in any subsequent action sequence ever shows
the banner again. -/
theorem c4_banner_shown_once (s : ConsentStorage) (accepted : Bool)
    (acts : List ConsentAction) :
    (ConsentBanner.bannerShownOnLoad s = true
      ↔ ConsentBanner.hasExistingConsent s = false)
    ∧ ∀ f ∈ loadFlags acts (applyAction s (.bannerChoice accepted)), f = false := by
  constructor
  · rw [ConsentBanner.bannerShownOnLoad]
    cases ConsentBanner.hasExistingConsent s <;> simp
  · exact loadFlags_no_banner acts _
      (by simp [applyAction, ConsentBanner.handleConsentChoice, ConsentBanner.setConsent,
            ConsentBanner.setConsentStorage, ConsentBanner.hasExistingConsent])

/-- Witness for C4: concrete empty storage, a rejection, then a page
load — the load shows nothing. -/
theorem c4_banner_shown_once_witness :
    (ConsentBanner.bannerShownOnLoad ⟨[], none⟩ = true
      ↔ ConsentBanner.hasExistingConsent ⟨[], none⟩ = false)
    ∧ false = false :=
  ⟨(c4_banner_shown_once ⟨[], none⟩ false [.pageLoad]).1,
   (c4_banner_shown_once ⟨[], none⟩ false [.pageLoad]).2 false (by decide)⟩

/-! ## Claim C8: section engagement fires at most once, after a full dwell -/

/-- Invariant of the observer state: no section has been reported
twice, and every reported section is in the tracked set. -/
def ObsInv (s : ObsState) : Prop :=
  (s.emitted.map Prod.fst).Nodup ∧ ∀ x ∈ s.emitted.map Prod.fst, x ∈ s.tracked

lemma trackSectionEngagement_inv {s : ObsState} (sid : String) (t : Nat)
    (h : ObsInv s) : ObsInv (EventAnalytics.trackSectionEngagement sid t s) := by
  rw [EventAnalytics.trackSectionEngagement]
  by_cases hm : sid ∈ s.tracked
  · rwa [if_pos hm]
  · rw [if_neg hm]
    obtain ⟨h1, h2⟩ := h
    constructor
    · rw [List.map_append, List.nodup_append]
      refine ⟨h1, by simp, ?_⟩
      intro x hx hx'
      simp only [List.map_cons, List.map_nil, List.mem_singleton] at hx'
      subst hx'
      exact hm (h2 x hx)
    · intro x hx
      rw [List.map_append] at hx
      rcases List.mem_append.mp hx with hx | hx
      · exact List.mem_cons_of_mem _ (h2 x hx)
      · simp only [List.map_cons, List.map_nil, List.mem_singleton] at hx
        subst hx
        exact List.mem_cons_self _ _

lemma foldl_trackSectionEngagement_inv (l : List (String × Nat)) :
    ∀ s : ObsState, ObsInv s →
      ObsInv (l.foldl (fun acc p => EventAnalytics.trackSectionEngagement p.1 p.2 acc) s) := by
  induction l with
  | nil => intro s h; exact h
  | cons q rest ih =>
    intro s h
    exact ih _ (trackSectionEngagement_inv q.1 q.2 h)

lemma fireDue_inv (t : Nat) {s : ObsState} (h : ObsInv s) : ObsInv (fireDue t s) :=
  foldl_trackSectionEngagement_inv _ _ h

lemma obsStep_inv {s : ObsState} (e : Nat × VisEvent) (h : ObsInv s) :
    ObsInv (obsStep s e) := by
  rw [obsStep]
  cases ev : e.2 with
  | enter sid =>
    dsimp only
    by_cases hb : (fireDue e.1 s).timers.any (fun p => p.1 == sid) = true
    · rw [if_pos hb]
      exact fireDue_inv e.1 h
    · rw [if_neg hb]
      exact fireDue_inv e.1 h
  | leave sid =>
    exact fireDue_inv e.1 h

lemma runObserver_inv (es : List (Nat × VisEvent)) : ObsInv (runObserver es) := by
  rw [runObserver]
  apply foldl_trackSectionEngagement_inv
  suffices hh : ∀ s : ObsState, ObsInv s → ObsInv (es.foldl obsStep s) by
    exact hh initialObs ⟨List.nodup_nil, by simp [initialObs]⟩
  induction es with
  | nil => intro s h; exact h
  | cons e rest ih =>
    intro s h
    exact ih _ (obsStep_inv e h)

lemma trackSectionEngagement_emitted_other {s : ObsState} {sid sid' : String} (t : Nat)
    (hne : sid' ≠ sid) (h : sid ∉ s.emitted.map Prod.fst) :
    sid ∉ (EventAnalytics.trackSectionEngagement sid' t s).emitted.map Prod.fst := by
  rw [EventAnalytics.trackSectionEngagement]
  by_cases hm : sid' ∈ s.tracked
  · rwa [if_pos hm]
  · rw [if_neg hm]
    intro hx
    rw [List.map_append] at hx
    rcases List.mem_append.mp hx with hx | hx
    · exact h hx
    · simp only [List.map_cons, List.map_nil, List.mem_singleton] at hx
      exact hne hx.symm

lemma foldl_tse_emitted (l : List (String × Nat)) :
    ∀ (s : ObsState) (sid : String), (∀ q ∈ l, q.1 ≠ sid) →
      sid ∉ s.emitted.map Prod.fst →
      sid ∉ (l.foldl (fun acc p => EventAnalytics.trackSectionEngagement p.1 p.2 acc)
              s).emitted.map Prod.fst := by
  induction l with
  | nil => intro s sid _ h; exact h
  | cons q rest ih =>
    intro s sid hl h
    exact ih _ sid (fun r hr => hl r (List.mem_cons_of_mem _ hr))
      (trackSectionEngagement_emitted_other q.2 (hl q (List.mem_cons_self _ _)) h)

lemma foldl_tse_timers (l : List (String × Nat)) :
    ∀ s : ObsState,
      (l.foldl (fun acc p => EventAnalytics.trackSectionEngagement p.1 p.2 acc) s).timers
        = s.timers := by
  induction l with
  | nil => intro s; rfl
  | cons q rest ih =>
    intro s
    rw [List.foldl_cons, ih, EventAnalytics.trackSectionEngagement]
    by_cases hm : q.1 ∈ s.tracked
    · rw [if_pos hm]
    · rw [if_neg hm]

lemma soonLeaveB_exists {sid : String} {d : Nat} :
    ∀ {es : List (Nat × VisEvent)}, soonLeaveB sid d es = true →
      ∃ t', (t', VisEvent.leave sid) ∈ es ∧ t' < d := by
  intro es
  induction es with
  | nil => intro h; cases h
  | cons e rest ih =>
    intro h
    rw [soonLeaveB, Bool.or_eq_true, Bool.and_eq_true] at h
    rcases h with ⟨h1, h2⟩ | h
    · refine ⟨e.1, ?_, of_decide_eq_true h2⟩
      have he : (e.1, VisEvent.leave sid) = e :=
        Prod.ext rfl (of_decide_eq_true h1).symm
      rw [he]
      exact List.mem_cons_self _ _
    · obtain ⟨t', ht, hlt⟩ := ih h
      exact ⟨t', List.mem_cons_of_mem _ ht, hlt⟩

lemma soonLeaveB_tail {sid : String} {d : Nat} {e : Nat × VisEvent}
    {rest : List (Nat × VisEvent)} (hne : e.2 ≠ .leave sid)
    (h : soonLeaveB sid d (e :: rest) = true) : soonLeaveB sid d rest = true := by
  rw [soonLeaveB, Bool.or_eq_true] at h
  rcases h with h | h
  · rw [Bool.and_eq_true] at h
    exact absurd (of_decide_eq_true h.1) hne
  · exact h

lemma obsStep_enter_fresh (s : ObsState) (t : Nat) (sid : String)
    (hb : ¬(fireDue t s).timers.any (fun p => p.1 == sid) = true) :
    obsStep s (t, .enter sid)
      = ⟨(fireDue t s).tracked,
         (fireDue t s).timers ++ [(sid, t + sectionEngagementTime)],
         (fireDue t s).emitted⟩ := by
  simp only [obsStep]
  rw [if_neg hb]

lemma obsStep_enter_pending (s : ObsState) (t : Nat) (sid : String)
    (hb : (fireDue t s).timers.any (fun p => p.1 == sid) = true) :
    obsStep s (t, .enter sid) = fireDue t s := by
  simp only [obsStep]
  rw [if_pos hb]

lemma obsStep_leave (s : ObsState) (t : Nat) (sid : String) :
    obsStep s (t, .leave sid)
      = ⟨(fireDue t s).tracked,
         (fireDue t s).timers.filter (fun p => !(p.1 == sid)),
         (fireDue t s).emitted⟩ := by
  simp only [obsStep]

/-- Core invariant run for the dwell property: if every visibility
interval of `sid` in the (chronological) remaining events ends
strictly before the dwell elapses, `sid` was not yet reported, and
every pending timer for `sid` is cancelled by a leave strictly before
its deadline, then `sid` is never reported. -/
lemma run_no_emit (sid : String) :
    ∀ (es : List (Nat × VisEvent)) (s : ObsState),
      chronological es →
      leavesSoonB sid sectionEngagementTime es = true →
      sid ∉ s.emitted.map Prod.fst →
      (∀ d, (sid, d) ∈ s.timers → soonLeaveB sid d es = true) →
      sid ∉ (flushTimers (es.foldl obsStep s)).emitted.map Prod.fst := by
  intro es
  induction es with
  | nil =>
    intro s _ _ hemit htimer
    rw [List.foldl_nil, flushTimers]
    apply foldl_tse_emitted
    · intro q hq hq1
      have hqmem : (sid, q.2) ∈ s.timers := by
        rw [← hq1]
        exact hq
      have hfalse := htimer q.2 hqmem
      rw [soonLeaveB] at hfalse
      cases hfalse
    · exact hemit
  | cons e rest ih =>
    obtain ⟨t, ev⟩ := e
    intro s hchron hleaves hemit htimer
    rw [chronological, List.pairwise_cons] at hchron
    obtain ⟨hhead, htail⟩ := hchron
    rw [leavesSoonB, Bool.and_eq_true] at hleaves
    obtain ⟨hleaves1, hleaves2⟩ := hleaves
    have hnodue : ∀ d, (sid, d) ∈ s.timers → ¬d ≤ t := by
      intro d hd hle
      obtain ⟨t', ht'mem, ht'lt⟩ := soonLeaveB_exists (htimer d hd)
      rcases List.mem_cons.mp ht'mem with heq | hmem
      · have ht1 : t' = t := congrArg Prod.fst heq
        omega
      · have hge : t ≤ t' := hhead _ hmem
        omega
    have hemit' : sid ∉ (fireDue t s).emitted.map Prod.fst := by
      rw [fireDue]
      apply foldl_tse_emitted
      · intro q hq hq1
        obtain ⟨hqmem, hqle⟩ := List.mem_filter.mp hq
        have hqmem' : (sid, q.2) ∈ s.timers := by
          rw [← hq1]
          exact hqmem
        exact hnodue q.2 hqmem' (of_decide_eq_true hqle)
      · exact hemit
    have htimers' : ∀ d, (sid, d) ∈ (fireDue t s).timers → (sid, d) ∈ s.timers := by
      intro d hd
      rw [fireDue, foldl_tse_timers] at hd
      exact (List.mem_filter.mp hd).1
    have hstep : ∀ d, (sid, d) ∈ (fireDue t s).timers →
        ((t, ev) : Nat × VisEvent).2 ≠ VisEvent.leave sid →
        soonLeaveB sid d rest = true := by
      intro d hd hne
      exact soonLeaveB_tail hne (htimer d (htimers' d hd))
    rw [List.foldl_cons]
    cases ev with
    | enter sid0 =>
      have hne : ((t, VisEvent.enter sid0) : Nat × VisEvent).2 ≠ VisEvent.leave sid := by
        intro hh
        cases hh
      by_cases hb0 : (fireDue t s).timers.any (fun p => p.1 == sid0) = true
      · rw [obsStep_enter_pending s t sid0 hb0]
        exact ih _ htail hleaves2 hemit' (fun d hd => hstep d hd hne)
      · rw [obsStep_enter_fresh s t sid0 hb0]
        refine ih _ htail hleaves2 hemit' ?_
        intro d hd
        rcases List.mem_append.mp hd with hd | hd
        · exact hstep d hd hne
        · simp only [List.mem_singleton] at hd
          have hsid : sid0 = sid := (congrArg Prod.fst hd).symm
          have hdval : d = t + sectionEngagementTime := congrArg Prod.snd hd
          subst hdval
          rw [if_pos (show ((t, VisEvent.enter sid0) : Nat × VisEvent).2
                = VisEvent.enter sid by rw [hsid])] at hleaves1
          exact hleaves1
    | leave sid0 =>
      rw [obsStep_leave s t sid0]
      refine ih _ htail hleaves2 hemit' ?_
      intro d hd
      obtain ⟨hdmem, hdne⟩ := List.mem_filter.mp hd
      have hne0 : sid ≠ sid0 := by
        intro hh
        rw [hh] at hdne
        simp at hdne
      have hne : ((t, VisEvent.leave sid0) : Nat × VisEvent).2 ≠ VisEvent.leave sid := by
        intro hh
        injection hh with hh'
        exact hne0 hh'.symm
      exact hstep d hdmem hne

/-- Claim C8: for every section identifier and every chronological
sequence of visibility changes within one page load, the engagement
event fires at most once per identifier; it never fires if the
section's continuously visible duration stays strictly below the
dwell threshold (leaving the viewport cancels the pending timer, and
re-entry restarts it from zero rather than accumulating); and a
second `trackSectionEngagement` call for an already-tracked
identifier is a no-op. -/
theorem c8_section_engagement (es : List (Nat × VisEvent)) (sid : String) :
    ((runObserver es).emitted.map Prod.fst).count sid ≤ 1
    ∧ (chronological es → leavesSoonB sid sectionEngagementTime es = true →
        sid ∉ (runObserver es).emitted.map Prod.fst)
    ∧ (∀ (t t' : Nat) (σ : ObsState),
        EventAnalytics.trackSectionEngagement sid t'
            (EventAnalytics.trackSectionEngagement sid t σ)
          = EventAnalytics.trackSectionEngagement sid t σ) := by
  refine ⟨?_, ?_, ?_⟩
  · exact List.nodup_iff_count_le_one.mp (runObserver_inv es).1 sid
  · intro hc hl
    rw [runObserver]
    exact run_no_emit sid es initialObs hc hl (by simp [initialObs])
      (fun d hd => absurd hd (by simp [initialObs]))
  · intro t t' σ
    have hmem : sid ∈ (EventAnalytics.trackSectionEngagement sid t σ).tracked := by
      rw [EventAnalytics.trackSectionEngagement]
      by_cases hm : sid ∈ σ.tracked
      · rwa [if_pos hm]
      · rw [if_neg hm]
        exact List.mem_cons_self _ _
    rw [EventAnalytics.trackSectionEngagement, if_pos hmem]

/-- Witness for C8: a section that enters at 0 ms and leaves at
1500 ms (below the 2000 ms dwell) is never reported. -/
theorem c8_section_engagement_witness :
    "hero" ∉
      (runObserver [(0, .enter "hero"), (1500, .leave "hero")]).emitted.map Prod.fst :=
  (c8_section_engagement [(0, .enter "hero"), (1500, .leave "hero")] "hero").2.1
    (by decide) (by decide)

/-- A list followed by a separator character is a prefix of a second
list followed by the same separator exactly when the two lists agree,
provided neither contains the separator. -/
lemma sep_prefix_iff {c : Char} (a : List Char) :
    ∀ (x y : List Char), c ∉ a → c ∉ x → (a ++ [c] <+: x ++ c :: y ↔ a = x) := by
  induction a with
  | nil =>
    intro x y _ hx
    cases x with
    | nil => simp
    | cons b xs =>
      simp only [List.nil_append, List.cons_append, List.cons_prefix_cons]
      constructor
      · rintro ⟨rfl, -⟩
        exact absurd (List.mem_cons_self _ _) hx
      · intro h
        exact absurd h (by simp)
  | cons a' as ih =>
    intro x y ha hx
    cases x with
    | nil =>
      simp only [List.cons_append, List.nil_append, List.cons_prefix_cons]
      constructor
      · rintro ⟨rfl, -⟩
        exact absurd (List.mem_cons_self _ _) ha
      · intro h
        exact absurd h (by simp)
    | cons b xs =>
      simp only [List.cons_append, List.cons_prefix_cons]
      rw [ih xs y (fun hc => ha (List.mem_cons_of_mem _ hc))
            (fun hc => hx (List.mem_cons_of_mem _ hc))]
      constructor
      · rintro ⟨rfl, rfl⟩
        rfl
      · intro h
        injection h with h1 h2
        exact ⟨h1, h2⟩

/-- A serialized cookie entry starts with `analytics-consent=` exactly
when the cookie's name is `analytics-consent` (for names that do not
themselves contain `=`, which cookie names cannot). -/
lemma entry_prefix_iff (p : String × String) (h : '=' ∉ p.1.data) :
    consentKeyEq.isPrefixOf (cookieEntry p) = true ↔ p.1 = "analytics-consent" := by
  rw [List.isPrefixOf_iff_prefix]
  rw [show consentKeyEq = "analytics-consent".data ++ ['='] from rfl, cookieEntry]
  rw [sep_prefix_iff _ _ _ (by decide) h]
  constructor
  · intro hd
    exact String.ext hd.symm
  · intro he
    rw [he]

/-- Under well-formed cookie names, the entry-prefix scan of the
sources finds exactly the first cookie named `analytics-consent`. -/
lemma findConsentCookie_eq (jar : List (String × String))
    (h : ∀ p ∈ jar, '=' ∉ p.1.data) :
    findConsentCookie jar = jar.find? (fun p => p.1 == "analytics-consent") := by
  induction jar with
  | nil => rfl
  | cons p rest ih =>
    have hp := h p (List.mem_cons_self _ _)
    have h2 : rest.find? (fun q => consentKeyEq.isPrefixOf (cookieEntry q))
        = rest.find? (fun q => q.1 == "analytics-consent") :=
      ih (fun q hq => h q (List.mem_cons_of_mem _ hq))
    by_cases hc : p.1 = "analytics-consent"
    · have h1 : consentKeyEq.isPrefixOf (cookieEntry p) = true :=
        (entry_prefix_iff p hp).mpr hc
      simp [findConsentCookie, List.find?_cons, h1, hc]
    · have h1 : consentKeyEq.isPrefixOf (cookieEntry p) = false := by
        rw [Bool.eq_false_iff]
        intro hh
        exact hc ((entry_prefix_iff p hp).mp hh)
      simp [findConsentCookie, List.find?_cons, h1, hc, h2]

/-- The literal `true` cannot straddle the `analytics-consent=` prefix
of a consent cookie entry: `includes('true')` on the entry is
`includes('true')` on the stored value.  (Definitional: the 18
concrete head characters never start a match.) -/
lemma containsSeq_true_entry (v : List Char) :
    containsSeq "true".data ("analytics-consent".data ++ '=' :: v)
      = containsSeq "true".data v :=
  rfl

/-- Claim C5 (amended): `hasExistingConsent()` is true iff either
location holds any value for the consent key; `hasUserConsent()` is
true iff the consent cookie's stored value contains `"true"` as a
substring (the source tests `includes('true')` on the cookie entry,
not equality) or the localStorage value equals `"true"`. -/
theorem c5_consent_accessors (s : ConsentStorage)
    (h : ∀ p ∈ s.cookies, '=' ∉ p.1.data) :
    (ConsentBanner.hasExistingConsent s = true
      ↔ (consentCookieValue s.cookies ≠ none ∨ s.localStore ≠ none))
    ∧ (hasUserConsent s = true
      ↔ ((∃ v, consentCookieValue s.cookies = some v
            ∧ containsSeq "true".data v.data = true)
         ∨ s.localStore = some "true")) := by
  have hfind := findConsentCookie_eq s.cookies h
  constructor
  · rw [ConsentBanner.hasExistingConsent, hfind, consentCookieValue]
    cases hf : s.cookies.find? (fun p => p.1 == "analytics-consent") <;>
      cases hl : s.localStore <;> simp
  · rw [hasUserConsent, hfind, consentCookieValue]
    cases hf : s.cookies.find? (fun p => p.1 == "analytics-consent") with
    | none => simp
    | some p =>
      have hp1 : p.1 = "analytics-consent" := by
        have := List.find?_some hf
        simpa using this
      have hb : containsSeq "true".data (cookieEntry p)
          = containsSeq "true".data p.2.data := by
        rw [cookieEntry, hp1]
        exact containsSeq_true_entry p.2.data
      dsimp only
      rw [hb]
      simp

/-- Witness for C5: a well-formed jar holding a granted consent
cookie. -/
theorem c5_consent_accessors_witness :
    (ConsentBanner.hasExistingConsent ⟨[("analytics-consent", "true")], none⟩ = true
      ↔ (consentCookieValue [("analytics-consent", "true")] ≠ none
         ∨ (none : Option String) ≠ none))
    ∧ (hasUserConsent ⟨[("analytics-consent", "true")], none⟩ = true
      ↔ ((∃ v, consentCookieValue [("analytics-consent", "true")] = some v
            ∧ containsSeq "true".data v.data = true)
         ∨ (none : Option String) = some "true")) :=
  c5_consent_accessors ⟨[("analytics-consent", "true")], none⟩ (by decide)

/-- Counterexample for C5 as stated: a consent cookie storing the
value `"untrue"` (and no localStorage value) makes `hasUserConsent()`
return true even though neither location's stored value equals
`"true"` — the cookie branch is a substring test, not an equality
test. -/
theorem c5_counterexample :
    hasUserConsent ⟨[("analytics-consent", "untrue")], none⟩ = true
    ∧ consentCookieValue [("analytics-consent", "untrue")] = some "untrue"
    ∧ ("untrue" : String) ≠ "true"
    ∧ (⟨[("analytics-consent", "untrue")], none⟩ : ConsentStorage).localStore
        ≠ some "true" := by decide

/-! ## Claim C9: URL sanitization strips everything but the path -/

/-- Every pathname produced by the URL parser starts with `/` and
contains neither a query separator nor a fragment separator. -/
lemma parseURL_pathname_clean (u : String) (p : URLParts) (h : parseURL u = some p) :
    p.pathname.head? = some '/' ∧ '?' ∉ p.pathname ∧ '#' ∉ p.pathname := by
  rw [parseURL] at h
  rcases hs : splitSchemeSep u.data with - | ⟨scheme, rest⟩ <;> rw [hs] at h <;>
    dsimp only at h
  · exact absurd h (by simp)
  · by_cases h1 : scheme.isEmpty = true
    · rw [if_pos h1] at h
      exact absurd h (by simp)
    · rw [if_neg h1] at h
      by_cases h2 : (rest.takeWhile fun c => decide (c ≠ '/' ∧ c ≠ '?' ∧ c ≠ '#')).isEmpty = true
      · rw [if_pos h2] at h
        exact absurd h (by simp)
      · rw [if_neg h2] at h
        rcases hd : rest.drop
            (rest.takeWhile fun c => decide (c ≠ '/' ∧ c ≠ '?' ∧ c ≠ '#')).length
          with - | ⟨c, tl⟩ <;> rw [hd] at h <;> dsimp only at h
        · cases h
          refine ⟨rfl, ?_, ?_⟩ <;>
            · intro hq
              exact absurd (List.mem_singleton.mp hq) (by decide)
        · by_cases hc : c = '/'
          · rw [if_pos hc] at h
            cases h
            refine ⟨rfl, ?_, ?_⟩ <;>
              · intro hq
                rcases List.mem_cons.mp hq with hq | hq
                · exact absurd hq (by decide)
                · have := List.mem_takeWhile_imp hq
                  simp at this
          · rw [if_neg hc] at h
            cases h
            refine ⟨rfl, ?_, ?_⟩ <;>
              · intro hq
                exact absurd (List.mem_singleton.mp hq) (by decide)

/-- Claim C9 (amended): `sanitizeURL` is total; it returns the
pathname of the parsed URL (always starting with `/`, with query
string and fragment stripped) and falls back to the root path `/` on
any input the URL parser rejects.  The page-view events transmit the
sanitized path for the page URL; the referrer field carries the
sanitized referrer path when a referrer exists and the literal
`'direct'` when the referrer is empty. -/
theorem c9_sanitized_urls (u : String) (env : PageEnv) :
    (parseURL u = none → sanitizeURL u = "/")
    ∧ (∀ p, parseURL u = some p → sanitizeURL u = String.mk p.pathname)
    ∧ (sanitizeURL u).data.head? = some '/'
    ∧ '?' ∉ (sanitizeURL u).data
    ∧ '#' ∉ (sanitizeURL u).data
    ∧ (∀ e ∈ EventAnalytics.trackPageViewEvents env, ∀ kv ∈ e.fields,
        ((kv.1 = "page" ∨ kv.1 = "page_url") → kv.2 = sanitizeURL env.href)
        ∧ (kv.1 = "referrer" →
            (env.referrer = "" ∧ kv.2 = "direct")
            ∨ (env.referrer ≠ "" ∧ kv.2 = sanitizeURL env.referrer))) := by
  refine ⟨?_, ?_, ?_, ?_, ?_, ?_⟩
  · intro h
    rw [sanitizeURL, h]
  · intro p h
    rw [sanitizeURL, h]
  · rw [sanitizeURL]
    rcases h : parseURL u with - | p
    · rfl
    · exact (parseURL_pathname_clean u p h).1
  · rw [sanitizeURL]
    rcases h : parseURL u with - | p
    · decide
    · exact (parseURL_pathname_clean u p h).2.1
  · rw [sanitizeURL]
    rcases h : parseURL u with - | p
    · decide
    · exact (parseURL_pathname_clean u p h).2.2
  · intro e he kv hkv
    rw [EventAnalytics.trackPageViewEvents] at he
    by_cases hr : env.referrer = ""
    · rw [if_pos hr] at he
      rcases List.mem_append.mp he with he | he <;>
        [cases env.vaPresent; cases hasUserConsent env.storage && env.hsqPresent] <;>
        simp_all <;> rcases hkv with rfl | rfl | rfl <;> simp [hr]
    · rw [if_neg hr] at he
      rcases List.mem_append.mp he with he | he <;>
        [cases env.vaPresent; cases hasUserConsent env.storage && env.hsqPresent] <;>
        simp_all <;> rcases hkv with rfl | rfl | rfl <;> simp [hr]

/-- Witness for C9: concrete malformed input, a concrete parsed URL,
and a concrete page-view field check. -/
theorem c9_sanitized_urls_witness :
    sanitizeURL "not a url" = "/"
    ∧ sanitizeURL "https://example.com/a?b=1" = String.mk ['/', 'a']
    ∧ ((("page", "/page").1 = "page" ∨ ("page", "/page").1 = "page_url") →
        ("page", "/page").2
          = sanitizeURL (⟨some "c", [], true, false, ⟨[], none⟩,
              "https://example.com/page?x=1", "", "T"⟩ : PageEnv).href) :=
  ⟨(c9_sanitized_urls "not a url"
      ⟨some "c", [], true, false, ⟨[], none⟩, "https://example.com/page?x=1", "", "T"⟩).1
      (by decide),
   (c9_sanitized_urls "https://example.com/a?b=1"
      ⟨some "c", [], true, false, ⟨[], none⟩, "https://example.com/page?x=1", "", "T"⟩).2.1
      ⟨"example.com".data, ['/', 'a']⟩ (by decide),
   ((c9_sanitized_urls "not a url"
      ⟨some "c", [], true, false, ⟨[], none⟩, "https://example.com/page?x=1", "", "T"⟩).2.2.2.2.2
      ⟨.vercel, "page_view", [("page", "/page"), ("title", "T")]⟩ (by decide)
      ("page", "/page") (by decide)).1⟩

/-- Counterexample for C9 as stated: with an empty referrer the
page-view event transmits the literal `'direct'` in the referrer
field, which is not a sanitized path (sanitized paths start with `/`;
`sanitizeURL ""` itself is `"/"`). -/
theorem c9_counterexample :
    EventAnalytics.trackPageViewEvents
        ⟨some "c", [], true, true, ⟨[], some "true"⟩,
         "https://example.com/page?x=1", "", "T"⟩
      = [⟨.vercel, "page_view", [("page", "/page"), ("title", "T")]⟩,
         ⟨.hubspot, "Landing Page View",
          [("page_url", "/page"), ("page_title", "T"), ("referrer", "direct")]⟩]
    ∧ ("direct" : String) ≠ sanitizeURL ""
    ∧ ("direct" : String).data.head? ≠ some '/' := by decide

/-! ## Claim C7: QR detection and the QR-landing event at init -/

/-- Claim C7: on a page with a campaign attribute and the analytics
global present, a query containing `utm_medium=qr` makes
`detectQRScan()` return true and `init()` emit the QR-landing event
(`qr_scan_landing`) exactly once (the consent-gated CRM copy at most
once); any other value or absence of `utm_medium` makes
`detectQRScan()` return false and no QR event is emitted. -/
theorem c7_qr_landing_once (env : PageEnv) (cid : String)
    (hid : env.analyticsId = some cid) (hva : env.vaPresent = true) :
    (getParam env.queryParams "utm_medium" = some "qr" →
      detectQRScan env.queryParams = true
      ∧ (EventAnalytics.initTrace env).countP (fun e => e.name == "qr_scan_landing") = 1
      ∧ (EventAnalytics.initTrace env).countP (fun e => e.name == "QR Code Scan") ≤ 1)
    ∧ (getParam env.queryParams "utm_medium" ≠ some "qr" →
      detectQRScan env.queryParams = false
      ∧ (EventAnalytics.initTrace env).countP (fun e => e.name == "qr_scan_landing") = 0
      ∧ (EventAnalytics.initTrace env).countP (fun e => e.name == "QR Code Scan") = 0) := by
  have hpv1 : (EventAnalytics.trackPageViewEvents env).countP
      (fun e => e.name == "qr_scan_landing") = 0 := by
    rw [EventAnalytics.trackPageViewEvents]
    cases env.vaPresent <;> cases hasUserConsent env.storage && env.hsqPresent <;> simp
  have hpv2 : (EventAnalytics.trackPageViewEvents env).countP
      (fun e => e.name == "QR Code Scan") = 0 := by
    rw [EventAnalytics.trackPageViewEvents]
    cases env.vaPresent <;> cases hasUserConsent env.storage && env.hsqPresent <;> simp
  constructor
  · intro h
    have hdet : detectQRScan env.queryParams = true := by
      rw [detectQRScan, h]
      rfl
    refine ⟨hdet, ?_, ?_⟩
    · rw [EventAnalytics.initTrace, hid, List.countP_append, hpv1,
        EventAnalytics.trackQRLandingEvents, hdet]
      simp only [if_true, hva]
      cases hasUserConsent env.storage && env.hsqPresent <;> simp
    · rw [EventAnalytics.initTrace, hid, List.countP_append, hpv2,
        EventAnalytics.trackQRLandingEvents, hdet]
      simp only [if_true, hva]
      cases hasUserConsent env.storage && env.hsqPresent <;> simp
  · intro h
    have hdet : detectQRScan env.queryParams = false := by
      rw [detectQRScan]
      exact beq_eq_false_iff_ne.mpr h
    have hqr : EventAnalytics.trackQRLandingEvents env = [] := by
      rw [EventAnalytics.trackQRLandingEvents, hdet]
      rfl
    refine ⟨hdet, ?_, ?_⟩
    · rw [EventAnalytics.initTrace, hid, List.countP_append, hpv1, hqr]
      rfl
    · rw [EventAnalytics.initTrace, hid, List.countP_append, hpv2, hqr]
      rfl

/-- Witness for C7: a concrete QR landing and a concrete email-medium
landing. -/
theorem c7_qr_landing_once_witness :
    (detectQRScan [("utm_medium", "qr")] = true
      ∧ (EventAnalytics.initTrace
          ⟨some "c", [("utm_medium", "qr")], true, false, ⟨[], none⟩,
           "https://example.com/", "", "T"⟩).countP
          (fun e => e.name == "qr_scan_landing") = 1
      ∧ (EventAnalytics.initTrace
          ⟨some "c", [("utm_medium", "qr")], true, false, ⟨[], none⟩,
           "https://example.com/", "", "T"⟩).countP
          (fun e => e.name == "QR Code Scan") ≤ 1)
    ∧ (detectQRScan [("utm_medium", "email")] = false
      ∧ (EventAnalytics.initTrace
          ⟨some "c", [("utm_medium", "email")], true, false, ⟨[], none⟩,
           "https://example.com/", "", "T"⟩).countP
          (fun e => e.name == "qr_scan_landing") = 0
      ∧ (EventAnalytics.initTrace
          ⟨some "c", [("utm_medium", "email")], true, false, ⟨[], none⟩,
           "https://example.com/", "", "T"⟩).countP
          (fun e => e.name == "QR Code Scan") = 0) :=
  ⟨(c7_qr_landing_once ⟨some "c", [("utm_medium", "qr")], true, false, ⟨[], none⟩,
      "https://example.com/", "", "T"⟩ "c" rfl rfl).1 (by decide),
   (c7_qr_landing_once ⟨some "c", [("utm_medium", "email")], true, false, ⟨[], none⟩,
      "https://example.com/", "", "T"⟩ "c" rfl rfl).2 (by decide)⟩

/-! ## Claim C10: the analytics consent setter writes only localStorage -/

/-- Claim C10: `window.EventAnalytics.setConsent` writes
`"true"`/`"false"` only to the localStorage key, re-runs `init()`
exactly when the value is true, and leaves the consent cookie
unchanged — so calling it alone can leave the two storage locations
in disagreement (shown at a concrete state). -/
theorem c10_analytics_set_consent_local_only (s : ConsentStorage) (value : Bool) :
    (EventAnalytics.setConsent s value).1.cookies = s.cookies
    ∧ (EventAnalytics.setConsent s value).1.localStore
        = some (if value then "true" else "false")
    ∧ (EventAnalytics.setConsent s value).2 = value
    ∧ (consentCookieValue
          (EventAnalytics.setConsent ⟨[("analytics-consent", "false")], some "false"⟩
            true).1.cookies = some "false"
       ∧ (EventAnalytics.setConsent ⟨[("analytics-consent", "false")], some "false"⟩
            true).1.localStore = some "true") :=
  ⟨rfl, rfl, rfl, by decide⟩
